import Mathlib

/-!
Shallow embedding of the occluded-left-turns simulator core
(`world_geometry.py`, `world_state.py`, `simulator.py`).

Python floats are modelled as exact rationals (ℚ); Python `raise ValueError`
is modelled as `Except.error SimError.invalidArgument`, an out-of-range list
index (Python `IndexError`, possible only on states that violate the
constructor invariants) as `SimError.indexError`.  The `SimError.unsupported`
constructor exists to state the spec's error taxonomy; the code never
produces it.
-/

namespace OLT

/-- Error conditions.  `invalidArgument` models Python `ValueError`;
`unsupported` is the condition the spec reserves for ABSTAIN (never raised by
the code); `indexError` models Python `IndexError`. -/
inductive SimError where
  | invalidArgument
  | unsupported
  | indexError
deriving DecidableEq, Repr

/-- 2D vector (`world_geometry.py`, `Vector`). -/
structure Vector where
  x : ℚ
  y : ℚ
deriving DecidableEq, Repr

/-- Axis-aligned rectangle (`world_geometry.py`, `Rect`). -/
structure Rect where
  x_min : ℚ
  x_max : ℚ
  y_min : ℚ
  y_max : ℚ
deriving DecidableEq, Repr

/-- Rectangle overlap test (`world_geometry.py` lines 26-37,
`Rect.overlappingRectangles`). -/
def Rect.overlappingRectangles (self other : Rect) : Bool :=
  ! (decide (self.x_max < other.x_min ∨ self.x_min > other.x_max ∨
             self.y_max < other.y_min ∨ self.y_min > other.y_max))

/-- Ego decision options (`world_state.py`, `Action`). -/
inductive Action where
  | ABSTAIN
  | TURN
  | WAIT
deriving DecidableEq, Repr

/-- Actor roles (`world_state.py`, `ActorType`). -/
inductive ActorType where
  | EGO
  | VEHICLE
  | PEDESTRIAN
deriving DecidableEq, Repr

/-- Moving object in the scene (`world_state.py`, `Actor`). -/
structure Actor where
  position : Vector
  velocity : Vector
  dims : ℚ × ℚ
  actor_type : ActorType
deriving DecidableEq, Repr

/-- Constant-velocity kinematic step (`world_state.py` lines 29-39,
`Actor.step`). -/
def Actor.step (self : Actor) (dt : ℚ) : Actor :=
  { position := ⟨self.position.x + self.velocity.x * dt,
                 self.position.y + self.velocity.y * dt⟩
    velocity := self.velocity
    dims := self.dims
    actor_type := self.actor_type }

/-- Hard-coded turn trajectory (`world_geometry.py` lines 73-91,
`SceneGeometry.turn_path`).  Decimal literals written as rationals:
`0.3 = 3/10`, `0.5 = 1/2`, `1.5 = 3/2`, `2.5 = 5/2`, `-0.5 = -1/2`,
`4.5 = 9/2`. -/
def turn_path : List (ℚ × Vector) :=
  [(0, ⟨0, 1⟩),
   (3/10, ⟨0, 2⟩),
   (1/2, ⟨0, 3⟩),
   (3/2, ⟨-1/2, 9/2⟩),
   (2, ⟨-1, 5⟩),
   (5/2, ⟨-2, 5⟩)]

/-- Linear interpolation between two waypoints
(`world_geometry.py` lines 143-148). -/
def interp (t0 : ℚ) (pos0 : Vector) (t1 : ℚ) (pos1 : Vector) (t : ℚ) : Vector :=
  ⟨pos0.x + (t - t0) / (t1 - t0) * (pos1.x - pos0.x),
   pos0.y + (t - t0) / (t1 - t0) * (pos1.y - pos0.y)⟩

/-- The segment-scanning loop of `get_turn_position_at_time`
(`world_geometry.py` lines 138-148): returns the interpolated position from
the first consecutive waypoint pair bracketing `t`, `none` if no pair does. -/
def findInterp : List ((ℚ × Vector) × (ℚ × Vector)) → ℚ → Option Vector
  | [], _ => none
  | (((t0, pos0), (t1, pos1)) :: rest), t =>
    if t0 ≤ t ∧ t ≤ t1 then some (interp t0 pos0 t1 pos1 t)
    else findInterp rest t

/-- Velocity of the final waypoint segment, as computed by
`get_turn_position_at_time` (`world_geometry.py` lines 120-128):
`path[-1]` is `getD (length - 1)`, `path[-2]` is `getD (length - 2)`. -/
def lastSegVelocity : Vector :=
  ⟨((turn_path.getD (turn_path.length - 1) (0, ⟨0, 0⟩)).2.x -
      (turn_path.getD (turn_path.length - 2) (0, ⟨0, 0⟩)).2.x) /
     ((turn_path.getD (turn_path.length - 1) (0, ⟨0, 0⟩)).1 -
      (turn_path.getD (turn_path.length - 2) (0, ⟨0, 0⟩)).1),
   ((turn_path.getD (turn_path.length - 1) (0, ⟨0, 0⟩)).2.y -
      (turn_path.getD (turn_path.length - 2) (0, ⟨0, 0⟩)).2.y) /
     ((turn_path.getD (turn_path.length - 1) (0, ⟨0, 0⟩)).1 -
      (turn_path.getD (turn_path.length - 2) (0, ⟨0, 0⟩)).1)⟩

/-- Constant-velocity extrapolation beyond the final waypoint
(`world_geometry.py` lines 130-135). -/
def extrapolateBeyondLast (t : ℚ) : Vector :=
  ⟨(turn_path.getD (turn_path.length - 1) (0, ⟨0, 0⟩)).2.x +
     lastSegVelocity.x * (t - (turn_path.getD (turn_path.length - 1) (0, ⟨0, 0⟩)).1),
   (turn_path.getD (turn_path.length - 1) (0, ⟨0, 0⟩)).2.y +
     lastSegVelocity.y * (t - (turn_path.getD (turn_path.length - 1) (0, ⟨0, 0⟩)).1)⟩

/-- Position along the turn path (`world_geometry.py` lines 93-151,
`SceneGeometry.get_turn_position_at_time`).  The final `.ok` in the `none`
case models the trailing "Shouldn't reach here" fallback return. -/
def get_turn_position_at_time (t : ℚ) : Except SimError Vector :=
  if t < 0 then .error .invalidArgument
  else if t ≤ (turn_path.getD 0 (0, ⟨0, 0⟩)).1 then
    .ok (turn_path.getD 0 (0, ⟨0, 0⟩)).2
  else if (turn_path.getD (turn_path.length - 1) (0, ⟨0, 0⟩)).1 ≤ t then
    .ok (extrapolateBeyondLast t)
  else
    match findInterp (turn_path.zip turn_path.tail) t with
    | some v => .ok v
    | none => .ok (turn_path.getD (turn_path.length - 1) (0, ⟨0, 0⟩)).2

/-- Finite-difference velocity along the turn path
(`world_geometry.py` lines 153-170, `SceneGeometry.get_turn_velocity_at_time`). -/
def get_turn_velocity_at_time (t : ℚ) (dt : ℚ) : Except SimError Vector :=
  match get_turn_position_at_time t with
  | .error e => .error e
  | .ok pos_now =>
    match get_turn_position_at_time (t + dt) with
    | .error e => .error e
    | .ok pos_future =>
      .ok ⟨(pos_future.x - pos_now.x) / dt, (pos_future.y - pos_now.y) / dt⟩

/-- World snapshot (`world_state.py`, `WorldState`).  The `geometry` field is
omitted: `SceneGeometry` carries no per-instance data (all its members are
fixed constants, modelled as the top-level definitions above). -/
structure WorldState where
  time : ℚ
  ego_turn_start_time : Option ℚ
  actors : List Actor
deriving DecidableEq, Repr

/-- Number of EGO-role actors (`world_state.py` line 56). -/
def egoCount (actors : List Actor) : Nat :=
  (actors.filter (fun a => decide (a.actor_type = ActorType.EGO))).length

/-- Validating constructor (`world_state.py` lines 53-67,
`WorldState.__post_init__`): exactly one ego, strictly positive dims,
non-negative time. -/
def mkWorldState (time : ℚ) (ego_turn_start_time : Option ℚ) (actors : List Actor) :
    Except SimError WorldState :=
  if egoCount actors = 0 then .error .invalidArgument
  else if 1 < egoCount actors then .error .invalidArgument
  else if actors.any (fun a => decide (a.dims.1 ≤ 0 ∨ a.dims.2 ≤ 0)) then
    .error .invalidArgument
  else if time < 0 then .error .invalidArgument
  else .ok ⟨time, ego_turn_start_time, actors⟩

/-- First EGO-role actor (`world_state.py` lines 79-83, the `ego` property).
`none` corresponds to the Python `IndexError` on a state with no ego. -/
def WorldState.ego? (state : WorldState) : Option Actor :=
  state.actors.find? (fun a => decide (a.actor_type = ActorType.EGO))

/-- Relative time along the turn path queried by the TURN branch
(`simulator.py` lines 78-82): `0` on the first TURN call, elapsed time since
the recorded start otherwise. -/
def turnRelTime (state : WorldState) : ℚ :=
  match state.ego_turn_start_time with
  | none => 0
  | some t0 => state.time - t0

/-- Shared tail of `step_world` (`simulator.py` lines 122-134): step the
non-ego actors, place the updated ego first, and build the new state through
the validating constructor. -/
def finish_step (state : WorldState) (ego : Actor) (dt : ℚ)
    (updated_ego : Actor) (new_tst : Option ℚ) : Except SimError WorldState :=
  mkWorldState (state.time + dt) new_tst
    (updated_ego ::
      (state.actors.filter (fun a => decide (a ≠ ego))).map (fun a => a.step dt))

/-- Step engine (`simulator.py` lines 53-134, `step_world`).  The ABSTAIN
branch of the Python source is commented out, so ABSTAIN reaches the trailing
`raise ValueError(f"Unknown action: ...")`, modelled as
`.error .invalidArgument`. -/
def step_world (state : WorldState) (ego_action : Action) (dt : ℚ) :
    Except SimError WorldState :=
  if dt ≤ 0 then .error .invalidArgument
  else
    match state.ego? with
    | none => .error .indexError
    | some ego =>
      match ego_action with
      | .TURN =>
        match get_turn_position_at_time (turnRelTime state) with
        | .error e => .error e
        | .ok new_position =>
          match get_turn_velocity_at_time (turnRelTime state) dt with
          | .error e => .error e
          | .ok new_velocity =>
            finish_step state ego dt
              ⟨new_position, new_velocity, ego.dims, ego.actor_type⟩
              (match state.ego_turn_start_time with
               | none => some state.time
               | some t0 => some t0)
      | .WAIT =>
        finish_step state ego dt
          ⟨ego.position, ⟨0, 0⟩, ego.dims, ego.actor_type⟩ none
      | .ABSTAIN => .error .invalidArgument

/-- Bounded loop of `simulate_trajectory` (`simulator.py` lines 161-173).
The fuel argument only bounds recursion depth; `simulate_trajectory` passes
`⌈duration / dt⌉ + 1`, which exceeds the number of iterations the Python
`while` loop performs, so the fuel-exhausted base case is never taken. -/
def simLoop (ego_action : Action) (duration dt : ℚ) :
    Nat → ℚ → WorldState → Except SimError (List WorldState)
  | 0, _, _ => .ok []
  | fuel + 1, elapsed, current_state =>
    if elapsed < duration then
      (step_world current_state ego_action (min dt (duration - elapsed))).bind
        (fun next_state =>
          (simLoop ego_action duration dt fuel
            (elapsed + min dt (duration - elapsed)) next_state).map
            (fun rest => next_state :: rest))
    else .ok []

/-- Trajectory driver (`simulator.py` lines 139-173, `simulate_trajectory`).
The `bind`/`map` plumbing models Python exception propagation out of the
loop, and the prepended `initial_state` models `states = [initial_state]`. -/
def simulate_trajectory (initial_state : WorldState) (ego_action : Action)
    (duration : ℚ) (dt : ℚ) : Except SimError (List WorldState) :=
  if duration ≤ 0 then .error .invalidArgument
  else if dt ≤ 0 then .error .invalidArgument
  else
    (simLoop ego_action duration dt (Nat.ceil (duration / dt) + 1) 0
      initial_state).map (fun rest => initial_state :: rest)

/-- Validity of a snapshot, exactly the three checks of
`WorldState.__post_init__`. -/
def validState (s : WorldState) : Prop :=
  egoCount s.actors = 1 ∧ (∀ a ∈ s.actors, 0 < a.dims.1 ∧ 0 < a.dims.2) ∧
    0 ≤ s.time

/-- Turn-start-time invariant of claim C9: unset, or between `0` and the
current time. -/
def tstInv (s : WorldState) : Prop :=
  s.ego_turn_start_time = none ∨
    ∃ t0, s.ego_turn_start_time = some t0 ∧ 0 ≤ t0 ∧ t0 ≤ s.time

/-- Concrete ego actor used by the evaluation witnesses. -/
def exEgo : Actor := ⟨⟨0, 1⟩, ⟨0, 0⟩, (1, 2), .EGO⟩

/-- Concrete valid world state used by the evaluation witnesses. -/
def exState : WorldState := ⟨0, none, [exEgo]⟩

/-! Helper lemmas inverting the constructors of successful calls. -/

lemma mkWorldState_ok {t : ℚ} {tst : Option ℚ} {as : List Actor} {w : WorldState}
    (h : mkWorldState t tst as = .ok w) : w = ⟨t, tst, as⟩ := by
  unfold mkWorldState at h
  split_ifs at h
  injection h with h
  exact h.symm

lemma finish_step_ok {s : WorldState} {ego : Actor} {dt : ℚ} {upd : Actor}
    {tst : Option ℚ} {w : WorldState} (h : finish_step s ego dt upd tst = .ok w) :
    w.time = s.time + dt ∧ w.ego_turn_start_time = tst ∧
      w.actors = upd ::
        (s.actors.filter (fun a => decide (a ≠ ego))).map (fun a => a.step dt) := by
  unfold finish_step at h
  have hw := mkWorldState_ok h
  rw [hw]
  exact ⟨rfl, rfl, rfl⟩

lemma step_world_wait_ok {s : WorldState} {dt : ℚ} {w : WorldState}
    (h : step_world s .WAIT dt = .ok w) :
    ∃ ego, s.ego? = some ego ∧ ¬ dt ≤ 0 ∧
      w.time = s.time + dt ∧ w.ego_turn_start_time = none ∧
      w.actors = (⟨ego.position, ⟨0, 0⟩, ego.dims, ego.actor_type⟩ : Actor) ::
        (s.actors.filter (fun a => decide (a ≠ ego))).map (fun a => a.step dt) := by
  unfold step_world at h
  split_ifs at h with hdt
  rcases hego : s.ego? with _ | ego <;> rw [hego] at h
  · exact Except.noConfusion h
  obtain ⟨h1, h2, h3⟩ := finish_step_ok h
  exact ⟨ego, rfl, hdt, h1, h2, h3⟩

lemma step_world_turn_ok {s : WorldState} {dt : ℚ} {w : WorldState}
    (h : step_world s .TURN dt = .ok w) :
    ∃ ego p v, s.ego? = some ego ∧ ¬ dt ≤ 0 ∧
      get_turn_position_at_time (turnRelTime s) = .ok p ∧
      get_turn_velocity_at_time (turnRelTime s) dt = .ok v ∧
      w.time = s.time + dt ∧
      w.ego_turn_start_time = (match s.ego_turn_start_time with
        | none => some s.time
        | some t0 => some t0) ∧
      w.actors = (⟨p, v, ego.dims, ego.actor_type⟩ : Actor) ::
        (s.actors.filter (fun a => decide (a ≠ ego))).map (fun a => a.step dt) := by
  unfold step_world at h
  split_ifs at h with hdt
  rcases hego : s.ego? with _ | ego <;> rw [hego] at h
  · exact Except.noConfusion h
  rcases hpos : get_turn_position_at_time (turnRelTime s) with e | p <;>
    rw [hpos] at h
  · exact Except.noConfusion h
  rcases hvel : get_turn_velocity_at_time (turnRelTime s) dt with e | v <;>
    rw [hvel] at h
  · exact Except.noConfusion h
  obtain ⟨h1, h2, h3⟩ := finish_step_ok h
  exact ⟨ego, p, v, rfl, hdt, rfl, rfl, h1, h2, h3⟩

lemma step_world_ok_time {s : WorldState} {a : Action} {dt : ℚ} {w : WorldState}
    (h : step_world s a dt = .ok w) : w.time = s.time + dt := by
  cases a with
  | ABSTAIN =>
    unfold step_world at h
    split_ifs at h
    rcases hego : s.ego? with _ | ego <;> rw [hego] at h <;>
      exact Except.noConfusion h
  | TURN =>
    obtain ⟨ego, p, v, h1, h2, h3, h4, ht, h5, h6⟩ := step_world_turn_ok h
    exact ht
  | WAIT =>
    obtain ⟨ego, h1, h2, ht, h3, h4⟩ := step_world_wait_ok h
    exact ht

lemma get_turn_position_at_time_isOk {t : ℚ} (ht : 0 ≤ t) :
    ∃ p, get_turn_position_at_time t = .ok p := by
  unfold get_turn_position_at_time
  rw [if_neg (not_lt.mpr ht)]
  split_ifs
  · exact ⟨_, rfl⟩
  · exact ⟨_, rfl⟩
  · rcases hfi : findInterp (turn_path.zip turn_path.tail) t with _ | v <;>
      exact ⟨_, rfl⟩

lemma unique_ego {actors : List Actor} {ego : Actor}
    (hcount : egoCount actors = 1)
    (hego : actors.find? (fun a => decide (a.actor_type = ActorType.EGO)) = some ego) :
    ∀ a ∈ actors, a.actor_type = ActorType.EGO → a = ego := by
  intro a ha hatype
  unfold egoCount at hcount
  obtain ⟨b, hb⟩ := List.length_eq_one.mp hcount
  have hp := List.find?_some hego
  have hmem : ego ∈ actors.filter (fun a => decide (a.actor_type = ActorType.EGO)) :=
    List.mem_filter.mpr ⟨List.mem_of_find?_eq_some hego, hp⟩
  have hamem : a ∈ actors.filter (fun a => decide (a.actor_type = ActorType.EGO)) :=
    List.mem_filter.mpr ⟨ha, by simp [hatype]⟩
  rw [hb, List.mem_singleton] at hmem hamem
  rw [hamem, hmem]

/-- Output of `step_world exState Action.TURN 1`, used by evaluation
witnesses. -/
def exTurnOut : WorldState := ⟨1, some 0, [⟨⟨0, 1⟩, ⟨-1/4, 11/4⟩, (1, 2), .EGO⟩]⟩

/-- Output of `step_world exState Action.WAIT 1`, used by evaluation
witnesses. -/
def exWaitOut : WorldState := ⟨1, none, [exEgo]⟩

/-- C1 counterexample: on a concrete valid state with `dt = 1`, `step_world`
with ABSTAIN fails with the `InvalidArgument` condition (the `ValueError` of
the unknown-action branch), not with a distinct `Unsupported` condition. -/
theorem step_world_abstain_counterexample :
    step_world exState .ABSTAIN 1 = .error .invalidArgument ∧
      step_world exState .ABSTAIN 1 ≠ .error .unsupported := by
  have h : step_world exState .ABSTAIN 1 = .error .invalidArgument := by
    norm_num [step_world, exState, exEgo, WorldState.ego?, List.find?]
  refine ⟨h, ?_⟩
  rw [h]
  simp

/-- C1 (amended): for every state with an ego actor and every `dt > 0`,
`step_world` with the ABSTAIN decision fails with the same `InvalidArgument`
condition as unrecognized decision values, because the ABSTAIN branch of the
source is commented out and the dispatch falls through to the unknown-action
`ValueError`. -/
theorem step_world_abstain_invalid_argument (s : WorldState) (dt : ℚ)
    (hdt : 0 < dt) (hego : s.ego?.isSome) :
    step_world s .ABSTAIN dt = .error .invalidArgument := by
  unfold step_world
  rw [if_neg (not_le.mpr hdt)]
  rcases hego2 : s.ego? with _ | ego
  · rw [hego2] at hego
    exact absurd hego (by simp)
  · rfl

/-- Witness for `step_world_abstain_invalid_argument` at a concrete input. -/
theorem step_world_abstain_invalid_argument_witness :
    step_world exState .ABSTAIN 1 = .error .invalidArgument :=
  step_world_abstain_invalid_argument exState 1 (by norm_num)
    (by norm_num [WorldState.ego?, exState, exEgo, List.find?])

/-- C3: a successful TURN step from a not-turning state queries the turn path
at relative time `0` and records the pre-step time as the turn start; from a
turning state it queries relative time `state.time - turn_start_time` and
carries `turn_start_time` forward unchanged.  The new ego position is the
value returned by the turn-path query at that relative time. -/
theorem step_world_turn_start_and_relative_time (s : WorldState) (dt : ℚ)
    (s' : WorldState) (hdt : 0 < dt) (h : step_world s .TURN dt = .ok s') :
    (s.ego_turn_start_time = none →
      turnRelTime s = 0 ∧ s'.ego_turn_start_time = some s.time) ∧
    (∀ t0, s.ego_turn_start_time = some t0 →
      turnRelTime s = s.time - t0 ∧ s'.ego_turn_start_time = some t0) ∧
    ∃ p, get_turn_position_at_time (turnRelTime s) = .ok p ∧
      s'.actors.head?.map Actor.position = some p := by
  obtain ⟨ego, p, v, hego, hdt2, hpos, hvel, htime, htst, hactors⟩ :=
    step_world_turn_ok h
  refine ⟨?_, ?_, p, hpos, ?_⟩
  · intro hnone
    rw [hnone] at htst
    exact ⟨by unfold turnRelTime; rw [hnone], htst⟩
  · intro t0 ht0
    rw [ht0] at htst
    exact ⟨by unfold turnRelTime; rw [ht0], htst⟩
  · rw [hactors]
    simp

/-- Witness for `step_world_turn_start_and_relative_time` at a concrete
input. -/
theorem step_world_turn_start_witness :
    (exState.ego_turn_start_time = none →
      turnRelTime exState = 0 ∧ exTurnOut.ego_turn_start_time = some exState.time) ∧
    (∀ t0, exState.ego_turn_start_time = some t0 →
      turnRelTime exState = exState.time - t0 ∧
        exTurnOut.ego_turn_start_time = some t0) ∧
    ∃ p, get_turn_position_at_time (turnRelTime exState) = .ok p ∧
      exTurnOut.actors.head?.map Actor.position = some p :=
  step_world_turn_start_and_relative_time exState 1 exTurnOut (by norm_num)
    (by norm_num [step_world, exState, exEgo, exTurnOut, WorldState.ego?,
      finish_step, mkWorldState, egoCount, Actor.step, List.find?, List.filter,
      turnRelTime, get_turn_velocity_at_time, get_turn_position_at_time,
      turn_path, findInterp, interp, List.getD])

/-- C9: the predicate "`ego_turn_start_time` is unset, or lies between `0`
and the current time" is preserved by every successful `step_world` call with
`dt > 0` and a WAIT or TURN decision (on states with non-negative time, as
guaranteed by construction); under it the relative time handed to the
turn-path query is non-negative, so the query returns a position instead of
the negative-time `InvalidArgument` failure. -/
theorem tstInv_preserved_and_turn_query_nonneg (s : WorldState) (a : Action)
    (dt : ℚ) (s' : WorldState) (hdt : 0 < dt) (htime : 0 ≤ s.time)
    (ha : a = .WAIT ∨ a = .TURN) (hinv : tstInv s)
    (h : step_world s a dt = .ok s') :
    tstInv s' ∧ 0 ≤ turnRelTime s ∧
      ∃ p, get_turn_position_at_time (turnRelTime s) = .ok p := by
  have hrel : 0 ≤ turnRelTime s := by
    rcases hst : s.ego_turn_start_time with _ | t0
    · simp [turnRelTime, hst]
    · rcases hinv with hnone | ⟨t0', hsome, h0, hle⟩
      · rw [hst] at hnone
        exact absurd hnone (by simp)
      · rw [hst] at hsome
        injection hsome with he
        subst he
        simp only [turnRelTime, hst]
        linarith
  refine ⟨?_, hrel, get_turn_position_at_time_isOk hrel⟩
  rcases ha with rfl | rfl
  · obtain ⟨ego, hego, hdt2, htime', htst, hactors⟩ := step_world_wait_ok h
    exact Or.inl htst
  · obtain ⟨ego, p, v, hego, hdt2, hpos, hvel, htime', htst, hactors⟩ :=
      step_world_turn_ok h
    rcases hst : s.ego_turn_start_time with _ | t0
    · rw [hst] at htst
      right
      exact ⟨s.time, htst, htime, by rw [htime']; linarith⟩
    · rw [hst] at htst
      rcases hinv with hnone | ⟨t0', hsome, h0, hle⟩
      · rw [hst] at hnone
        exact absurd hnone (by simp)
      · rw [hst] at hsome
        injection hsome with he
        subst he
        right
        exact ⟨t0, htst, h0, by rw [htime']; linarith⟩

lemma turn_path_getD_zero : turn_path.getD 0 (0, ⟨0, 0⟩) = (0, ⟨0, 1⟩) := rfl

lemma turn_path_getD_last :
    turn_path.getD (turn_path.length - 1) (0, ⟨0, 0⟩) = (5/2, ⟨-2, 5⟩) := rfl

lemma turn_path_getD_prev :
    turn_path.getD (turn_path.length - 2) (0, ⟨0, 0⟩) = (2, ⟨-1, 5⟩) := rfl

lemma lastSegVelocity_eq : lastSegVelocity = ⟨-2, 0⟩ := by
  unfold lastSegVelocity
  rw [turn_path_getD_last, turn_path_getD_prev]
  norm_num [Vector.mk.injEq]

lemma findInterp_cons (t0 : ℚ) (pos0 : Vector) (t1 : ℚ) (pos1 : Vector)
    (rest : List ((ℚ × Vector) × (ℚ × Vector))) (t : ℚ) :
    findInterp (((t0, pos0), (t1, pos1)) :: rest) t =
      if t0 ≤ t ∧ t ≤ t1 then some (interp t0 pos0 t1 pos1 t)
      else findInterp rest t := rfl

/-- C5: the turn-path position query returns the first waypoint's position at
`t = 0`, and at every waypoint boundary the interpolation branch ending there
agrees with the branch starting there (the constant head branch at the first
waypoint, consecutive segments at interior waypoints, and the extrapolation
branch at the last waypoint), so the position has no jump. -/
theorem turn_position_waypoint_continuity :
    turn_path = [(0, ⟨0, 1⟩), (3/10, ⟨0, 2⟩), (1/2, ⟨0, 3⟩), (3/2, ⟨-1/2, 9/2⟩),
      (2, ⟨-1, 5⟩), (5/2, ⟨-2, 5⟩)] ∧
    get_turn_position_at_time 0 = .ok ⟨0, 1⟩ ∧
    interp 0 ⟨0, 1⟩ (3/10) ⟨0, 2⟩ 0 = ⟨0, 1⟩ ∧
    interp 0 ⟨0, 1⟩ (3/10) ⟨0, 2⟩ (3/10) = interp (3/10) ⟨0, 2⟩ (1/2) ⟨0, 3⟩ (3/10) ∧
    interp (3/10) ⟨0, 2⟩ (1/2) ⟨0, 3⟩ (1/2) =
      interp (1/2) ⟨0, 3⟩ (3/2) ⟨-1/2, 9/2⟩ (1/2) ∧
    interp (1/2) ⟨0, 3⟩ (3/2) ⟨-1/2, 9/2⟩ (3/2) =
      interp (3/2) ⟨-1/2, 9/2⟩ 2 ⟨-1, 5⟩ (3/2) ∧
    interp (3/2) ⟨-1/2, 9/2⟩ 2 ⟨-1, 5⟩ 2 = interp 2 ⟨-1, 5⟩ (5/2) ⟨-2, 5⟩ 2 ∧
    interp 2 ⟨-1, 5⟩ (5/2) ⟨-2, 5⟩ (5/2) = extrapolateBeyondLast (5/2) := by
  refine ⟨rfl, ?_, ?_, ?_, ?_, ?_, ?_, ?_⟩ <;>
    norm_num [get_turn_position_at_time, turn_path, interp, extrapolateBeyondLast,
      lastSegVelocity, List.getD, Vector.mk.injEq]

/-- C6: at or beyond the last waypoint's time `5/2`, the turn-path position is
the last waypoint plus `(t - 5/2)` times the velocity of the final waypoint
segment — an affine function of `t`. -/
theorem turn_position_extrapolates_affinely :
    turn_path.getD (turn_path.length - 1) (0, ⟨0, 0⟩) = (5/2, ⟨-2, 5⟩) ∧
    lastSegVelocity = ⟨-2, 0⟩ ∧
    ∀ t : ℚ, 5/2 ≤ t →
      get_turn_position_at_time t =
        .ok ⟨-2 + (-2) * (t - 5/2), 5 + 0 * (t - 5/2)⟩ := by
  refine ⟨rfl, lastSegVelocity_eq, ?_⟩
  intro t ht
  have h1 : ¬ t < 0 := by push_neg; linarith
  have h2 : ¬ t ≤ (turn_path.getD 0 (0, ⟨0, 0⟩)).1 := by
    rw [turn_path_getD_zero]
    show ¬ t ≤ (0 : ℚ)
    push_neg
    linarith
  have h3 : (turn_path.getD (turn_path.length - 1) (0, ⟨0, 0⟩)).1 ≤ t := by
    rw [turn_path_getD_last]
    exact ht
  unfold get_turn_position_at_time
  rw [if_neg h1, if_neg h2, if_pos h3]
  unfold extrapolateBeyondLast
  rw [turn_path_getD_last, lastSegVelocity_eq]

/-- Witness for `turn_position_extrapolates_affinely` at `t = 3`. -/
theorem turn_position_extrapolates_affinely_witness :
    get_turn_position_at_time 3 =
      .ok ⟨-2 + (-2) * ((3 : ℚ) - 5/2), 5 + 0 * ((3 : ℚ) - 5/2)⟩ :=
  turn_position_extrapolates_affinely.2.2 3 (by norm_num)

/-- C10: for every `t ≥ 0` the turn-path query answers from one of the three
explicit branches — constant before the first waypoint, affine extrapolation
at or after the last, or a bracketing segment found by the scan — so the
trailing fallback return after the segment loop is unreachable. -/
theorem turn_position_three_branches (t : ℚ) (ht : 0 ≤ t) :
    (t ≤ 0 ∧ get_turn_position_at_time t = .ok ⟨0, 1⟩) ∨
    (5/2 ≤ t ∧ get_turn_position_at_time t = .ok (extrapolateBeyondLast t)) ∨
    (∃ v, findInterp (turn_path.zip turn_path.tail) t = some v ∧
      get_turn_position_at_time t = .ok v) := by
  rcases le_or_lt t 0 with h0 | h0
  · left
    refine ⟨h0, ?_⟩
    unfold get_turn_position_at_time
    rw [if_neg (not_lt.mpr ht), if_pos (by rw [turn_path_getD_zero]; exact h0),
      turn_path_getD_zero]
  · rcases le_or_lt (5/2 : ℚ) t with h5 | h5
    · right
      left
      refine ⟨h5, ?_⟩
      unfold get_turn_position_at_time
      rw [if_neg (not_lt.mpr ht),
        if_neg (by rw [turn_path_getD_zero]; show ¬ t ≤ (0 : ℚ); push_neg; exact h0),
        if_pos (by rw [turn_path_getD_last]; exact h5)]
    · right
      right
      have hpairs : turn_path.zip turn_path.tail =
          [((0, ⟨0, 1⟩), (3/10, ⟨0, 2⟩)), ((3/10, ⟨0, 2⟩), (1/2, ⟨0, 3⟩)),
           ((1/2, ⟨0, 3⟩), (3/2, ⟨-1/2, 9/2⟩)), ((3/2, ⟨-1/2, 9/2⟩), (2, ⟨-1, 5⟩)),
           ((2, ⟨-1, 5⟩), (5/2, ⟨-2, 5⟩))] := rfl
      obtain ⟨v, hv⟩ : ∃ v, findInterp (turn_path.zip turn_path.tail) t = some v := by
        rw [hpairs]
        rcases le_or_lt t (3/10) with hb | hb
        · rw [findInterp_cons, if_pos ⟨le_of_lt h0, hb⟩]
          exact ⟨_, rfl⟩
        rcases le_or_lt t (1/2) with hc | hc
        · rw [findInterp_cons, if_neg (by rintro ⟨-, hy⟩; linarith),
            findInterp_cons, if_pos ⟨le_of_lt hb, hc⟩]
          exact ⟨_, rfl⟩
        rcases le_or_lt t (3/2) with he | he
        · rw [findInterp_cons, if_neg (by rintro ⟨-, hy⟩; linarith),
            findInterp_cons, if_neg (by rintro ⟨-, hy⟩; linarith),
            findInterp_cons, if_pos ⟨le_of_lt hc, he⟩]
          exact ⟨_, rfl⟩
        rcases le_or_lt t 2 with hf | hf
        · rw [findInterp_cons, if_neg (by rintro ⟨-, hy⟩; linarith),
            findInterp_cons, if_neg (by rintro ⟨-, hy⟩; linarith),
            findInterp_cons, if_neg (by rintro ⟨-, hy⟩; linarith),
            findInterp_cons, if_pos ⟨le_of_lt he, hf⟩]
          exact ⟨_, rfl⟩
        · rw [findInterp_cons, if_neg (by rintro ⟨-, hy⟩; linarith),
            findInterp_cons, if_neg (by rintro ⟨-, hy⟩; linarith),
            findInterp_cons, if_neg (by rintro ⟨-, hy⟩; linarith),
            findInterp_cons, if_neg (by rintro ⟨-, hy⟩; linarith),
            findInterp_cons, if_pos ⟨le_of_lt hf, le_of_lt h5⟩]
          exact ⟨_, rfl⟩
      refine ⟨v, hv, ?_⟩
      unfold get_turn_position_at_time
      rw [if_neg (not_lt.mpr ht),
        if_neg (by rw [turn_path_getD_zero]; show ¬ t ≤ (0 : ℚ); push_neg; exact h0),
        if_neg (by rw [turn_path_getD_last]; show ¬ (5/2 : ℚ) ≤ t; push_neg; exact h5),
        hv]

/-- Witness for `turn_position_three_branches` at `t = 1`. -/
theorem turn_position_three_branches_witness :
    ((1 : ℚ) ≤ 0 ∧ get_turn_position_at_time 1 = .ok ⟨0, 1⟩) ∨
    ((5/2 : ℚ) ≤ 1 ∧ get_turn_position_at_time 1 = .ok (extrapolateBeyondLast 1)) ∨
    (∃ v, findInterp (turn_path.zip turn_path.tail) 1 = some v ∧
      get_turn_position_at_time 1 = .ok v) :=
  turn_position_three_branches 1 (by norm_num)

/-- C4: on every valid world state and for every `dt > 0`, the WAIT decision
succeeds and returns a state whose ego has velocity `(0,0)` and the input
ego's position, and whose `ego_turn_start_time` is `none`; no hypothesis is
made on the input's `ego_turn_start_time`, so this holds whether or not the
input state was turning. -/
theorem step_world_wait_zeroes_velocity (s : WorldState) (dt : ℚ)
    (hdt : 0 < dt) (hs : validState s) :
    ∃ ego s', s.ego? = some ego ∧ step_world s .WAIT dt = .ok s' ∧
      s'.ego_turn_start_time = none ∧
      s'.ego? = some ⟨ego.position, ⟨0, 0⟩, ego.dims, ego.actor_type⟩ := by
  obtain ⟨hcount, hdims, htime⟩ := hs
  have hsome : s.ego?.isSome := by
    rcases hn : s.ego? with _ | e
    · exfalso
      have hego' : s.actors.find? (fun a => decide (a.actor_type = ActorType.EGO)) =
          none := hn
      rw [List.find?_eq_none] at hego'
      have hnil := List.filter_eq_nil_iff.mpr hego'
      unfold egoCount at hcount
      rw [hnil] at hcount
      simp at hcount
    · simp [hn]
  obtain ⟨ego, hego⟩ := Option.isSome_iff_exists.mp hsome
  have hego' : s.actors.find? (fun a => decide (a.actor_type = ActorType.EGO)) =
      some ego := hego
  have hp := List.find?_some hego'
  have htype : ego.actor_type = ActorType.EGO := by simpa using hp
  have hmem : ego ∈ s.actors := List.mem_of_find?_eq_some hego'
  have hothersType : ∀ b ∈ (s.actors.filter (fun a => decide (a ≠ ego))).map
      (fun a => a.step dt), ¬ b.actor_type = ActorType.EGO := by
    intro b hb
    obtain ⟨a2, ha2, rfl⟩ := List.mem_map.mp hb
    obtain ⟨ha3, hane⟩ := List.mem_filter.mp ha2
    intro habs
    have ha4 : a2.actor_type = ActorType.EGO := habs
    have := unique_ego hcount hego' a2 ha3 ha4
    simp only [decide_eq_true_eq] at hane
    exact hane this
  have hpu : (fun a => decide (a.actor_type = ActorType.EGO))
      (⟨ego.position, ⟨0, 0⟩, ego.dims, ego.actor_type⟩ : Actor) = true := by
    simp [htype]
  have hcount' : egoCount ((⟨ego.position, ⟨0, 0⟩, ego.dims, ego.actor_type⟩ : Actor) ::
      (s.actors.filter (fun a => decide (a ≠ ego))).map (fun a => a.step dt)) = 1 := by
    unfold egoCount
    rw [List.filter_cons, if_pos hpu,
      List.filter_eq_nil_iff.mpr (fun b hb => by simpa using hothersType b hb)]
    rfl
  have hany : ((⟨ego.position, ⟨0, 0⟩, ego.dims, ego.actor_type⟩ : Actor) ::
      (s.actors.filter (fun a => decide (a ≠ ego))).map (fun a => a.step dt)).any
      (fun a => decide (a.dims.1 ≤ 0 ∨ a.dims.2 ≤ 0)) = false := by
    rw [← Bool.not_eq_true, List.any_eq_true]
    rintro ⟨b, hb, hbd⟩
    simp only [decide_eq_true_eq] at hbd
    rcases List.mem_cons.mp hb with rfl | hb2
    · rcases hbd with hle | hle
      · exact absurd (hdims ego hmem).1 (not_lt.mpr hle)
      · exact absurd (hdims ego hmem).2 (not_lt.mpr hle)
    · obtain ⟨a2, ha2, rfl⟩ := List.mem_map.mp hb2
      obtain ⟨ha3, _⟩ := List.mem_filter.mp ha2
      rcases hbd with hle | hle
      · exact absurd (hdims a2 ha3).1 (not_lt.mpr hle)
      · exact absurd (hdims a2 ha3).2 (not_lt.mpr hle)
  have hok : step_world s .WAIT dt = .ok ⟨s.time + dt, none,
      (⟨ego.position, ⟨0, 0⟩, ego.dims, ego.actor_type⟩ : Actor) ::
        (s.actors.filter (fun a => decide (a ≠ ego))).map (fun a => a.step dt)⟩ := by
    unfold step_world
    rw [if_neg (not_le.mpr hdt), hego]
    show finish_step s ego dt ⟨ego.position, ⟨0, 0⟩, ego.dims, ego.actor_type⟩ none = _
    unfold finish_step mkWorldState
    rw [if_neg (by rw [hcount']; norm_num), if_neg (by rw [hcount']; norm_num),
      if_neg (by rw [hany]; simp), if_neg (by push_neg; linarith)]
  refine ⟨ego, ⟨s.time + dt, none,
    (⟨ego.position, ⟨0, 0⟩, ego.dims, ego.actor_type⟩ : Actor) ::
      (s.actors.filter (fun a => decide (a ≠ ego))).map (fun a => a.step dt)⟩,
    hego, hok, rfl, ?_⟩
  exact List.find?_cons_of_pos _ hpu

/-- Witness for `step_world_wait_zeroes_velocity` at a concrete input. -/
theorem step_world_wait_witness :
    ∃ ego s', exState.ego? = some ego ∧ step_world exState .WAIT 1 = .ok s' ∧
      s'.ego_turn_start_time = none ∧
      s'.ego? = some ⟨ego.position, ⟨0, 0⟩, ego.dims, ego.actor_type⟩ :=
  step_world_wait_zeroes_velocity exState 1 (by norm_num)
    (by refine ⟨?_, ?_, ?_⟩ <;>
      norm_num [validState, egoCount, exState, exEgo, List.filter])

/-- Witness for `tstInv_preserved_and_turn_query_nonneg` at a concrete
input. -/
theorem tstInv_preserved_witness :
    tstInv exWaitOut ∧ 0 ≤ turnRelTime exState ∧
      ∃ p, get_turn_position_at_time (turnRelTime exState) = .ok p :=
  tstInv_preserved_and_turn_query_nonneg exState .WAIT 1 exWaitOut
    (by norm_num) (by norm_num [exState]) (Or.inl rfl) (Or.inl rfl)
    (by norm_num [step_world, exState, exEgo, exWaitOut, WorldState.ego?,
      finish_step, mkWorldState, egoCount, Actor.step, List.find?, List.filter])

lemma overlappingRectangles_eq_false_iff (a b : Rect) :
    a.overlappingRectangles b = false ↔
      (a.x_max < b.x_min ∨ a.x_min > b.x_max ∨ a.y_max < b.y_min ∨
        a.y_min > b.y_max) := by
  unfold Rect.overlappingRectangles
  rw [Bool.not_eq_false', decide_eq_true_eq]

lemma overlappingRectangles_eq_true_iff (a b : Rect) :
    a.overlappingRectangles b = true ↔
      ¬ (a.x_max < b.x_min ∨ a.x_min > b.x_max ∨ a.y_max < b.y_min ∨
        a.y_min > b.y_max) := by
  unfold Rect.overlappingRectangles
  rw [Bool.not_eq_true', decide_eq_false_iff_not]

/-- C7: the rectangle-overlap test is symmetric, returns `false` exactly when
the rectangles are strictly separated on the x-axis or the y-axis, and
returns `true` for well-formed rectangles sharing only a boundary edge
(third conjunct) or only a boundary corner (fourth conjunct). -/
theorem overlaps_symm_separation_boundary (a b : Rect) :
    (a.overlappingRectangles b = b.overlappingRectangles a) ∧
    (a.overlappingRectangles b = false ↔
      (a.x_max < b.x_min ∨ a.x_min > b.x_max ∨ a.y_max < b.y_min ∨
        a.y_min > b.y_max)) ∧
    (a.x_min ≤ a.x_max → b.x_min ≤ b.x_max → a.x_max = b.x_min →
      b.y_min ≤ a.y_max → a.y_min ≤ b.y_max →
      a.overlappingRectangles b = true) ∧
    (a.x_min ≤ a.x_max → a.y_min ≤ a.y_max → b.x_min ≤ b.x_max →
      b.y_min ≤ b.y_max → a.x_max = b.x_min → a.y_max = b.y_min →
      a.overlappingRectangles b = true) := by
  refine ⟨?_, overlappingRectangles_eq_false_iff a b, ?_, ?_⟩
  · cases hab : a.overlappingRectangles b <;>
      cases hba : b.overlappingRectangles a <;> try rfl
    · exfalso
      have h1 := (overlappingRectangles_eq_false_iff a b).mp hab
      have h2 := (overlappingRectangles_eq_true_iff b a).mp hba
      apply h2
      rcases h1 with h | h | h | h
      · exact Or.inr (Or.inl h)
      · exact Or.inl h
      · exact Or.inr (Or.inr (Or.inr h))
      · exact Or.inr (Or.inr (Or.inl h))
    · exfalso
      have h1 := (overlappingRectangles_eq_true_iff a b).mp hab
      have h2 := (overlappingRectangles_eq_false_iff b a).mp hba
      apply h1
      rcases h2 with h | h | h | h
      · exact Or.inr (Or.inl h)
      · exact Or.inl h
      · exact Or.inr (Or.inr (Or.inr h))
      · exact Or.inr (Or.inr (Or.inl h))
  · intro hax hbx hx hy1 hy2
    rw [overlappingRectangles_eq_true_iff]
    push_neg
    exact ⟨by linarith, by linarith, by linarith, by linarith⟩
  · intro hax hay hbx hby hx hy
    rw [overlappingRectangles_eq_true_iff]
    push_neg
    exact ⟨by linarith, by linarith, by linarith, by linarith⟩

/-- Witness for `overlaps_symm_separation_boundary`: two unit squares
touching only at a corner overlap. -/
theorem overlaps_symm_separation_boundary_witness :
    Rect.overlappingRectangles ⟨0, 1, 0, 1⟩ ⟨1, 2, 1, 2⟩ = true :=
  (overlaps_symm_separation_boundary ⟨0, 1, 0, 1⟩ ⟨1, 2, 1, 2⟩).2.2.2
    (by norm_num) (by norm_num) (by norm_num) (by norm_num) (by norm_num)
    (by norm_num)

/-- C8: constructing a `WorldState` fails with the `InvalidArgument`
condition when the actor list has zero or at least two EGO-role actors, when
any actor has a non-positive width or length, or when the time is
negative. -/
theorem mkWorldState_rejects_invalid (time : ℚ) (tst : Option ℚ)
    (actors : List Actor) :
    ((egoCount actors = 0 ∨ 2 ≤ egoCount actors) →
      mkWorldState time tst actors = .error .invalidArgument) ∧
    ((∃ a ∈ actors, a.dims.1 ≤ 0 ∨ a.dims.2 ≤ 0) →
      mkWorldState time tst actors = .error .invalidArgument) ∧
    (time < 0 → mkWorldState time tst actors = .error .invalidArgument) := by
  refine ⟨?_, ?_, ?_⟩
  · intro h
    unfold mkWorldState
    split_ifs with h1 h2 h3 h4
    · rfl
    · rfl
    · rfl
    · rfl
    · exfalso
      rcases h with h | h
      · exact h1 h
      · exact h2 (by omega)
  · intro h
    unfold mkWorldState
    split_ifs with h1 h2 h3 h4
    · rfl
    · rfl
    · rfl
    · rfl
    · exfalso
      obtain ⟨a, ha, hd⟩ := h
      exact h3 (List.any_eq_true.mpr ⟨a, ha, by simpa using hd⟩)
  · intro h
    unfold mkWorldState
    split_ifs <;> rfl

/-- Witness for `mkWorldState_rejects_invalid`: an empty actor list has zero
EGO actors and is rejected. -/
theorem mkWorldState_rejects_invalid_witness :
    mkWorldState 0 none [] = .error .invalidArgument :=
  (mkWorldState_rejects_invalid 0 none []).1 (Or.inl rfl)

lemma except_map_ok {ε α β : Type} {f : α → β} {x : Except ε α} {y : β}
    (h : x.map f = .ok y) : ∃ z, x = .ok z ∧ y = f z := by
  cases x with
  | error e => exact Except.noConfusion h
  | ok z =>
    refine ⟨z, rfl, ?_⟩
    injection h with h
    exact h.symm

lemma except_bind_ok {ε α β : Type} (a : α) (f : α → Except ε β) :
    (Except.ok a).bind f = f a := rfl

lemma simLoop_succ (a : Action) (dur dt : ℚ) (fuel : Nat) (elapsed : ℚ)
    (cur : WorldState) :
    simLoop a dur dt (fuel + 1) elapsed cur =
      if elapsed < dur then
        (step_world cur a (min dt (dur - elapsed))).bind
          (fun next_state =>
            (simLoop a dur dt fuel (elapsed + min dt (dur - elapsed))
              next_state).map (fun rest => next_state :: rest))
      else .ok [] := rfl

lemma sim_fuel_eq : Nat.ceil ((1 : ℚ) / (3/10)) + 1 = 5 := by
  have h : Nat.ceil ((1 : ℚ) / (3/10)) = 4 := by
    rw [Nat.ceil_eq_iff (by norm_num)]
    norm_num
  rw [h]

lemma step_wait_exEgo (t dt u : ℚ) (hdt : 0 < dt) (hu : t + dt = u)
    (ht : 0 ≤ u) :
    step_world ⟨t, none, [exEgo]⟩ .WAIT dt = .ok ⟨u, none, [exEgo]⟩ := by
  subst hu
  simp [step_world, exEgo, WorldState.ego?, finish_step, mkWorldState, egoCount,
    Actor.step, List.find?, List.filter, not_le.mpr hdt, not_lt.mpr ht]

/-- Trajectory produced by `simulate_trajectory exState Action.WAIT 1 (3/10)`,
used by the evaluation witness. -/
def trajEx : List WorldState :=
  [exState, ⟨3/10, none, [exEgo]⟩, ⟨3/5, none, [exEgo]⟩, ⟨9/10, none, [exEgo]⟩,
   ⟨1, none, [exEgo]⟩]

/-- C2 counterexample: for the ABSTAIN decision the claim fails — on a
concrete valid initial state, `simulate_trajectory` with
`duration = 1, dt = 3/10` does not return snapshots at all but fails on the
first step with the `InvalidArgument` condition of the unknown-action
branch. -/
theorem simulate_trajectory_abstain_counterexample :
    validState exState ∧
      simulate_trajectory exState .ABSTAIN 1 (3/10) =
        .error .invalidArgument := by
  constructor
  · refine ⟨?_, ?_, ?_⟩ <;>
      norm_num [validState, egoCount, exState, exEgo, List.filter]
  · unfold simulate_trajectory
    rw [if_neg (by norm_num), if_neg (by norm_num), sim_fuel_eq,
      show (5 : ℕ) = 4 + 1 from rfl, simLoop_succ,
      if_pos (by norm_num : (0 : ℚ) < 1)]
    have habs : step_world exState .ABSTAIN (min (3/10 : ℚ) (1 - 0)) =
        .error .invalidArgument := by
      norm_num [step_world, exState, exEgo, WorldState.ego?, List.find?, min_def]
    rw [habs]
    rfl

/-- C2 (amended): whenever `simulate_trajectory s d 1 (3/10)` succeeds (it
fails for ABSTAIN, and for TURN from a state violating the turn-start
invariant), it returns exactly 5 snapshots whose elapsed times are exactly
`[0, 3/10, 3/5, 9/10, 1]`: the last step is shortened to `1/10` so the
cumulative elapsed time never exceeds the duration. -/
theorem simulate_trajectory_five_snapshots (s : WorldState) (d : Action)
    (states : List WorldState)
    (h : simulate_trajectory s d 1 (3/10) = .ok states) :
    states.length = 5 ∧
      states.map (fun w => w.time - s.time) = [0, 3/10, 3/5, 9/10, 1] := by
  unfold simulate_trajectory at h
  rw [if_neg (by norm_num), if_neg (by norm_num), sim_fuel_eq] at h
  obtain ⟨r0, hL0, hstates⟩ := except_map_ok h
  rw [show (5 : ℕ) = 4 + 1 from rfl, simLoop_succ,
    if_pos (by norm_num : (0 : ℚ) < 1),
    show min ((3 : ℚ)/10) (1 - 0) = 3/10 by norm_num [min_def],
    show (0 : ℚ) + 3/10 = 3/10 by norm_num] at hL0
  rcases h1 : step_world s d (3/10) with e | s1 <;> rw [h1] at hL0
  · exact Except.noConfusion hL0
  have hL0' : (simLoop d 1 (3/10) 4 (3/10) s1).map (fun rest => s1 :: rest) =
      .ok r0 := hL0
  obtain ⟨r1, hL1, hr0⟩ := except_map_ok hL0'
  rw [show (4 : ℕ) = 3 + 1 from rfl, simLoop_succ,
    if_pos (by norm_num : (3 : ℚ)/10 < 1),
    show min ((3 : ℚ)/10) (1 - 3/10) = 3/10 by norm_num [min_def],
    show (3 : ℚ)/10 + 3/10 = 3/5 by norm_num] at hL1
  rcases h2 : step_world s1 d (3/10) with e | s2 <;> rw [h2] at hL1
  · exact Except.noConfusion hL1
  have hL1' : (simLoop d 1 (3/10) 3 (3/5) s2).map (fun rest => s2 :: rest) =
      .ok r1 := hL1
  obtain ⟨r2, hL2, hr1⟩ := except_map_ok hL1'
  rw [show (3 : ℕ) = 2 + 1 from rfl, simLoop_succ,
    if_pos (by norm_num : (3 : ℚ)/5 < 1),
    show min ((3 : ℚ)/10) (1 - 3/5) = 3/10 by norm_num [min_def],
    show (3 : ℚ)/5 + 3/10 = 9/10 by norm_num] at hL2
  rcases h3 : step_world s2 d (3/10) with e | s3 <;> rw [h3] at hL2
  · exact Except.noConfusion hL2
  have hL2' : (simLoop d 1 (3/10) 2 (9/10) s3).map (fun rest => s3 :: rest) =
      .ok r2 := hL2
  obtain ⟨r3, hL3, hr2⟩ := except_map_ok hL2'
  rw [show (2 : ℕ) = 1 + 1 from rfl, simLoop_succ,
    if_pos (by norm_num : (9 : ℚ)/10 < 1),
    show min ((3 : ℚ)/10) (1 - 9/10) = 1/10 by norm_num [min_def],
    show (9 : ℚ)/10 + 1/10 = 1 by norm_num] at hL3
  rcases h4 : step_world s3 d (1/10) with e | s4 <;> rw [h4] at hL3
  · exact Except.noConfusion hL3
  have hL3' : (simLoop d 1 (3/10) 1 1 s4).map (fun rest => s4 :: rest) =
      .ok r3 := hL3
  obtain ⟨r4, hL4, hr3⟩ := except_map_ok hL3'
  rw [show (1 : ℕ) = 0 + 1 from rfl, simLoop_succ,
    if_neg (by norm_num : ¬ (1 : ℚ) < 1)] at hL4
  injection hL4 with hr4
  subst hstates hr0 hr1 hr2 hr3
  rw [← hr4]
  have t1 := step_world_ok_time h1
  have t2 := step_world_ok_time h2
  have t3 := step_world_ok_time h3
  have t4 := step_world_ok_time h4
  refine ⟨rfl, ?_⟩
  simp only [List.map_cons, List.map_nil, t1, t2, t3, t4, List.cons.injEq,
    and_true]
  refine ⟨by ring, by ring, by ring, by ring, by ring⟩

/-- Witness for `simulate_trajectory_five_snapshots` at a concrete input. -/
theorem simulate_trajectory_five_snapshots_witness :
    trajEx.length = 5 ∧
      trajEx.map (fun w => w.time - exState.time) = [0, 3/10, 3/5, 9/10, 1] :=
  simulate_trajectory_five_snapshots exState .WAIT trajEx (by
    unfold simulate_trajectory
    simp only [trajEx, exState]
    rw [if_neg (by norm_num), if_neg (by norm_num), sim_fuel_eq,
      show (5 : ℕ) = 4 + 1 from rfl, simLoop_succ,
      if_pos (by norm_num : (0 : ℚ) < 1),
      show min ((3 : ℚ)/10) (1 - 0) = 3/10 by norm_num [min_def],
      show (0 : ℚ) + 3/10 = 3/10 by norm_num,
      step_wait_exEgo 0 (3/10) (3/10) (by norm_num) (by norm_num) (by norm_num)]
    rw [except_bind_ok]
    rw [show (4 : ℕ) = 3 + 1 from rfl, simLoop_succ,
      if_pos (by norm_num : (3 : ℚ)/10 < 1),
      show min ((3 : ℚ)/10) (1 - 3/10) = 3/10 by norm_num [min_def],
      show (3 : ℚ)/10 + 3/10 = 3/5 by norm_num,
      step_wait_exEgo (3/10) (3/10) (3/5) (by norm_num) (by norm_num)
        (by norm_num)]
    rw [except_bind_ok]
    rw [show (3 : ℕ) = 2 + 1 from rfl, simLoop_succ,
      if_pos (by norm_num : (3 : ℚ)/5 < 1),
      show min ((3 : ℚ)/10) (1 - 3/5) = 3/10 by norm_num [min_def],
      show (3 : ℚ)/5 + 3/10 = 9/10 by norm_num,
      step_wait_exEgo (3/5) (3/10) (9/10) (by norm_num) (by norm_num)
        (by norm_num)]
    rw [except_bind_ok]
    rw [show (2 : ℕ) = 1 + 1 from rfl, simLoop_succ,
      if_pos (by norm_num : (9 : ℚ)/10 < 1),
      show min ((3 : ℚ)/10) (1 - 9/10) = 1/10 by norm_num [min_def],
      show (9 : ℚ)/10 + 1/10 = 1 by norm_num,
      step_wait_exEgo (9/10) (1/10) 1 (by norm_num) (by norm_num) (by norm_num)]
    rw [except_bind_ok]
    rw [show (1 : ℕ) = 0 + 1 from rfl, simLoop_succ,
      if_neg (by norm_num : ¬ (1 : ℚ) < 1)]
    rfl)

end OLT
